import Mathlib

/-!
Shallow embedding of watchman's command registry, capability set and
dispatch pipeline (`src/cmds/reg.cpp`), together with proofs about the
dispatch behaviour that the specification describes.

Modelling conventions:
* `json_t*` argument arrays are modelled as `List JVal`, where the
  dispatcher only ever distinguishes "element is a string" from
  "element is not a string" (`json_string_value` returning NULL).
* The global hash tables `command_funcs` and `capabilities`
  (`w_ht_t` with string keys, `w_ht_set` overwriting on key collision)
  are modelled as association lists with overwrite-on-insert, and as a
  duplicate-free string list, respectively.
* Side effects visible to the session (`send_error_response`,
  invocation of `def->func`) are recorded as an event trace.
* The `json_incref`/`json_decref` pair on `client->current_command`
  is tracked as an integer reference-count delta for the args value.
* Wall-clock perf sampling is observational logging only; the model keeps
  the `client->perf_sample` handle (set/cleared) but not the timing.
-/

namespace Watchman

/-- A JSON value as seen by the dispatcher: either a string (for which
`json_string_value` returns the text) or any non-string value (for which
it returns NULL).  The remaining argument elements are opaque to the
dispatch code. -/
inductive JVal where
  | str : String → JVal
  | nonstr : JVal
deriving DecidableEq, Repr

/-- `struct watchman_command_handler_def` (reg.cpp): the command name, the
flag bitset, and the optional CLI validator (`cli_validate`), which takes
the argument array and may produce an error message.  The handler body
(`func`) is an external collaborator; its invocation is recorded as an
event by `dispatch_command`. -/
structure CommandDef where
  name : String
  flags : Nat
  cli_validate : Option (List JVal → Option String) := none

/-- Mode/flag bits from watchman.h (declarations outside src/): distinct
bits for daemon mode, CLI mode, and the two policy bits. -/
def CMD_DAEMON : Nat := 1

/-- CLI-bootstrap mode bit. -/
def CMD_CLI : Nat := 2

/-- Policy bit: the command may be run by a non-owner session. -/
def CMD_ALLOW_ANY_USER : Nat := 4

/-- Policy bit: the command may run even when the daemon is poisoned. -/
def CMD_POISON_IMMUNE : Nat := 8

/-- `w_ht_get` on the string-keyed `command_funcs` table: return the
definition registered under `key`, if any. -/
def regGet (reg : List (String × CommandDef)) (key : String) : Option CommandDef :=
  match reg with
  | [] => none
  | (k, d) :: rest => if k = key then some d else regGet rest key

/-- `w_ht_set` on the string-keyed `command_funcs` table: overwrite the
entry for `key` when present, append it otherwise. -/
def regSet (reg : List (String × CommandDef)) (key : String) (v : CommandDef) :
    List (String × CommandDef) :=
  match reg with
  | [] => [(key, v)]
  | (k, d) :: rest => if k = key then (key, v) :: rest else (k, d) :: regSet rest key v

/-- The process-wide state held in reg.cpp's globals: the command table
`command_funcs`, the `capabilities` table (a set of strings), and the
`poisoned_reason` fail-safe flag (NULL = healthy). -/
structure GlobalState where
  command_funcs : List (String × CommandDef) := []
  capabilities : List String := []
  poisoned_reason : Option String := none

/-- The empty startup state: no commands, no capabilities, not poisoned. -/
def emptyState : GlobalState := {}

/-- `w_capability_register`: set-insert of `name` into the capability
table (`w_ht_set` with value `true`; inserting an existing key leaves the
set of keys unchanged). -/
def w_capability_register (st : GlobalState) (name : String) : GlobalState :=
  { st with capabilities :=
      if st.capabilities.contains name then st.capabilities else name :: st.capabilities }

/-- `w_capability_supported`: membership test in the capability table. -/
def w_capability_supported (st : GlobalState) (name : String) : Bool :=
  st.capabilities.contains name

/-- `snprintf(capname, sizeof(capname), "cmd-%s", defs->name)` with
`char capname[128]`: the formatted string is truncated to 127 characters
(127 bytes plus the NUL terminator; the model truncates at character
granularity, which agrees with the byte count on ASCII names). -/
def truncate127 (s : String) : String :=
  String.mk (s.data.take 127)

/-- `w_register_command`: store the definition in `command_funcs` under
its name (overwriting any previous entry), then register the derived
capability `cmd-<name>` (truncated to the 128-byte buffer). -/
def w_register_command (st : GlobalState) (defs : CommandDef) : GlobalState :=
  let st1 : GlobalState :=
    { st with command_funcs := regSet st.command_funcs defs.name defs }
  w_capability_register st1 (truncate127 ("cmd-" ++ defs.name))

/-- Registering a whole list of definitions in order, starting from `st`
(the startup registration calls). -/
def registerAll (defs : List CommandDef) (st : GlobalState) : GlobalState :=
  List.foldl w_register_command st defs

/-- `lookup` (reg.cpp lines 64-103): resolve the argument array to a
command definition, or produce an error message.  Returns the pair
(resolved definition, errmsg), mirroring the C out-parameter:
* empty array: malformed-command error;
* element 0 not a string: malformed-command error;
* definition found and `mode` nonzero but the mode bit absent from its
  flags: mode-violation error;
* definition found otherwise: success, no error;
* not found with `mode` nonzero: unknown-command error;
* not found with `mode == 0`: no definition and no error (tolerant). -/
def lookup (command_funcs : List (String × CommandDef)) (args : List JVal) (mode : Nat) :
    Option CommandDef × Option String :=
  match args with
  | [] => (none, some "invalid command (expected an array with some elements!)")
  | jstr :: _ =>
    match jstr with
    | JVal.nonstr => (none, some "invalid command: expected element 0 to be the command name")
    | JVal.str cmd_name =>
      match regGet command_funcs cmd_name with
      | some d =>
        if mode ≠ 0 ∧ d.flags &&& mode = 0 then
          (none, some ("command " ++ cmd_name ++ " not available in this mode"))
        else
          (some d, none)
      | none =>
        if mode ≠ 0 then (none, some ("unknown command " ++ cmd_name)) else (none, none)

/-- Session-visible effects of a dispatch call: an error response sent
with `send_error_response` (carrying the C format argument, which on the
tolerant-unknown path is the NULL `errmsg`), or the invocation of a
command handler (`def->func(client, args)`). -/
inductive Event where
  | errorResponse : Option String → Event
  | handlerInvoked : String → List JVal → Event
deriving DecidableEq, Repr

/-- The per-session fields of `struct watchman_client` that reg.cpp
touches: the owner-trust flag, the stashed in-flight command
(`current_command`), and the perf-sample handle (`perf_sample`,
modelled as "is the handle set"). -/
structure Client where
  client_is_owner : Bool
  current_command : Option (List JVal) := none
  perf_sample : Bool := false
deriving DecidableEq, Repr

/-- The outcome of one `dispatch_command` call: the returned boolean, the
globals as left behind, the client's fields as left behind, the trace of
session-visible events, and the net `json_incref`/`json_decref` balance
on the args value held through `client->current_command`. -/
structure DispatchResult where
  result : Bool
  globals : GlobalState
  client : Client
  events : List Event
  argsRefDelta : Int

/-- A single-quote character, for the permission-denied message text. -/
def squote : String := String.singleton (Char.ofNat 39)

/-- The `send_error_response` text of the ownership rejection (reg.cpp
line 167): "you must be the process owner to execute '<name>'". -/
def owner_error_message (name : String) : String :=
  "you must be the process owner to execute " ++ squote ++ name ++ squote

/-- The `done:` epilogue of `dispatch_command` (reg.cpp lines 195-200):
`json_decref(client->current_command)` (balancing the incref at entry,
so the net delta is 0), `client->current_command = NULL`,
`client->perf_sample = nullptr`. -/
def dispatchDone (st : GlobalState) (client : Client) (events : List Event)
    (result : Bool) : DispatchResult :=
  { result := result
    globals := st
    client := { client with current_command := none, perf_sample := false }
    events := events
    argsRefDelta := 0 }

/-- `dispatch_command` (reg.cpp lines 142-201).  Control flow:
1. stash `args` in `client->current_command` and `json_incref` it;
2. `lookup`; if it yields no definition, `send_error_response` with the
   (possibly NULL) errmsg and go to `done` (result stays false);
3. if `poisoned_reason` is set and the definition lacks
   `CMD_POISON_IMMUNE`, send the poison reason and go to `done`;
4. if the client is not the owner and the definition lacks
   `CMD_ALLOW_ANY_USER`, send the ownership error and `return false`
   directly — without the `done` cleanup (reg.cpp line 169);
5. otherwise set the perf-sample handle, set `result = true`, invoke the
   handler, and fall through to `done`. -/
def dispatch_command (st : GlobalState) (client : Client) (args : List JVal)
    (mode : Nat) : DispatchResult :=
  match lookup st.command_funcs args mode with
  | (none, errmsg) =>
      dispatchDone st { client with current_command := some args }
        [Event.errorResponse errmsg] false
  | (some d, _) =>
      if st.poisoned_reason.isSome ∧ d.flags &&& CMD_POISON_IMMUNE = 0 then
        dispatchDone st { client with current_command := some args }
          [Event.errorResponse st.poisoned_reason] false
      else if client.client_is_owner = false ∧ d.flags &&& CMD_ALLOW_ANY_USER = 0 then
        { result := false
          globals := st
          client := { client with current_command := some args }
          events := [Event.errorResponse (some (owner_error_message d.name))]
          argsRefDelta := 1 }
      else
        dispatchDone st { client with current_command := some args, perf_sample := true }
          [Event.handlerInvoked d.name args] true

/-- The build-time version string baked into error envelopes
(`PACKAGE_VERSION`); its concrete value is irrelevant to the dispatch
logic. -/
def PACKAGE_VERSION : String := "4.9.0"

/-- The error envelope serialized by `preprocess_command` via
`json_pack("{s:m, s:u, s:b}", "error", errmsg, "version",
PACKAGE_VERSION, "cli_validated", true)`. -/
structure ErrorEnvelope where
  error : String
  version : String
  cli_validated : Bool
deriving DecidableEq, Repr

/-- The outcome of `preprocess_command`: either it returns normally, or
it serializes an error envelope to stdout and calls `exit(1)`. -/
inductive PreprocessOutcome where
  | ret : PreprocessOutcome
  | exitError : ErrorEnvelope → PreprocessOutcome
deriving DecidableEq, Repr

/-- `preprocess_command` (reg.cpp lines 105-140): look the command up
with `mode = 0`; if nothing is known about it (no definition, no error),
return normally for forward compatibility; if a definition with a
`cli_validate` hook was found and no error was produced yet, run the
validator; finally, if any error message was produced (by `lookup` or by
the validator), serialize the error envelope and exit nonzero. -/
def preprocess_command (command_funcs : List (String × CommandDef)) (args : List JVal) :
    PreprocessOutcome :=
  match lookup command_funcs args 0 with
  | (none, none) => PreprocessOutcome.ret
  | (none, some errmsg) =>
      PreprocessOutcome.exitError ⟨errmsg, PACKAGE_VERSION, true⟩
  | (some d, none) =>
      match d.cli_validate with
      | none => PreprocessOutcome.ret
      | some validate =>
          match validate args with
          | none => PreprocessOutcome.ret
          | some errmsg =>
              PreprocessOutcome.exitError ⟨errmsg, PACKAGE_VERSION, true⟩
  | (some _, some errmsg) =>
      PreprocessOutcome.exitError ⟨errmsg, PACKAGE_VERSION, true⟩

/-- `compare_def` orders definitions by `strcmp` on their names; the
model's ordered insert used by the sort in
`print_command_list_for_help`. -/
def insertByName (d : CommandDef) : List CommandDef → List CommandDef
  | [] => [d]
  | e :: rest => if d.name ≤ e.name then d :: e :: rest else e :: insertByName d rest

/-- The `qsort(defs, n, sizeof(*defs), compare_def)` step of
`print_command_list_for_help`, modelled as a comparison sort by name
(registry names are unique, so any comparison sort yields the same,
uniquely determined ascending order as qsort does). -/
def sortDefs : List CommandDef → List CommandDef
  | [] => []
  | d :: rest => insertByName d (sortDefs rest)

/-- `print_command_list_for_help` (reg.cpp lines 24-47): gather the
registry's definitions (in whatever iteration order the hash table
produces — the model quantifies over it), sort them with `compare_def`,
and print one name per line.  The result is the printed name list. -/
def print_command_list_for_help (defs : List CommandDef) : List String :=
  (sortDefs defs).map (fun d => d.name)

/-! ### Concrete definitions used in witnesses and counterexamples -/

/-- A daemon-mode command open to any user (like watchman's `find`). -/
def findDef : CommandDef := { name := "find", flags := CMD_DAEMON }

/-- A daemon-mode command under a name sorting after `find`. -/
def getPidDef : CommandDef := { name := "get-pid", flags := CMD_DAEMON }

/-- A second definition under the name `find`, with different flags, for
the last-write-wins scenario. -/
def findDef2 : CommandDef := { name := "find", flags := CMD_DAEMON ||| CMD_ALLOW_ANY_USER }

/-- A CLI-only command, for the mode-violation scenario. -/
def cliOnlyDef : CommandDef := { name := "log-level", flags := CMD_CLI }

/-- A command with a CLI validator that rejects arrays shorter than two
elements. -/
def valDef : CommandDef :=
  { name := "val"
    flags := CMD_CLI
    cli_validate := some (fun as => if as.length < 2 then some "missing argument" else none) }

/-- A state with only `findDef` registered. -/
def stFind : GlobalState :=
  { command_funcs := [("find", findDef)], capabilities := ["cmd-find"] }

/-- A session owned by the daemon's owner. -/
def ownerClient : Client := { client_is_owner := true }

/-- A session from a different, untrusted user. -/
def nonOwnerClient : Client := { client_is_owner := false }

/-- A 124-character command name, for which `cmd-<name>` (128 characters)
no longer fits the 128-byte `capname` buffer. -/
def longName : String := String.mk (List.replicate 124 (Char.ofNat 97))

/-! ### Helper lemmas about `regGet`/`regSet`, `lookup`, and the branches
of `dispatch_command` -/

theorem regGet_regSet_self (reg : List (String × CommandDef)) (k : String) (v : CommandDef) :
    regGet (regSet reg k v) k = some v := by
  induction reg with
  | nil => simp [regSet, regGet]
  | cons hd tl ih =>
    obtain ⟨k0, d0⟩ := hd
    by_cases h : k0 = k
    · simp [regSet, regGet, h]
    · simp [regSet, regGet, h, ih]

theorem regGet_regSet_ne (reg : List (String × CommandDef)) (k k2 : String) (v : CommandDef)
    (h : k2 ≠ k) : regGet (regSet reg k v) k2 = regGet reg k2 := by
  have h2 : k ≠ k2 := fun hh => h hh.symm
  induction reg with
  | nil => simp [regSet, regGet, h2]
  | cons hd tl ih =>
    obtain ⟨k0, d0⟩ := hd
    by_cases h0 : k0 = k
    · subst h0
      simp [regSet, regGet, h2]
    · by_cases hk2 : k0 = k2
      · subst hk2
        simp [regSet, regGet, h0]
      · simp [regSet, regGet, h0, hk2, ih]

theorem lookup_found (cf : List (String × CommandDef)) (n : String) (rest : List JVal)
    (mode : Nat) (d : CommandDef) (hreg : regGet cf n = some d)
    (hmode : mode = 0 ∨ d.flags &&& mode ≠ 0) :
    lookup cf (JVal.str n :: rest) mode = (some d, none) := by
  have hcond : ¬(mode ≠ 0 ∧ d.flags &&& mode = 0) := by
    rcases hmode with h | h
    · simp [h]
    · intro hc
      exact h hc.2
  simp only [lookup, hreg]
  rw [if_neg hcond]

theorem lookup_mode_violation (cf : List (String × CommandDef)) (n : String)
    (rest : List JVal) (mode : Nat) (d : CommandDef) (hreg : regGet cf n = some d)
    (hmode : mode ≠ 0) (hflags : d.flags &&& mode = 0) :
    lookup cf (JVal.str n :: rest) mode =
      (none, some ("command " ++ n ++ " not available in this mode")) := by
  simp only [lookup, hreg]
  rw [if_pos ⟨hmode, hflags⟩]

theorem lookup_unknown_tolerant (cf : List (String × CommandDef)) (n : String)
    (rest : List JVal) (hreg : regGet cf n = none) :
    lookup cf (JVal.str n :: rest) 0 = (none, none) := by
  simp [lookup, hreg]

theorem dispatch_eq_of_lookup_none (st : GlobalState) (client : Client) (args : List JVal)
    (mode : Nat) (e : Option String)
    (hl : lookup st.command_funcs args mode = (none, e)) :
    dispatch_command st client args mode =
      dispatchDone st { client with current_command := some args }
        [Event.errorResponse e] false := by
  unfold dispatch_command
  rw [hl]

theorem dispatch_eq_of_poisoned (st : GlobalState) (client : Client) (args : List JVal)
    (mode : Nat) (d : CommandDef) (e : Option String)
    (hl : lookup st.command_funcs args mode = (some d, e))
    (hp : st.poisoned_reason.isSome = true)
    (hi : d.flags &&& CMD_POISON_IMMUNE = 0) :
    dispatch_command st client args mode =
      dispatchDone st { client with current_command := some args }
        [Event.errorResponse st.poisoned_reason] false := by
  unfold dispatch_command
  rw [hl]
  dsimp only
  rw [if_pos (⟨hp, hi⟩ : _ ∧ _)]

theorem dispatch_eq_of_perm_denied (st : GlobalState) (client : Client) (args : List JVal)
    (mode : Nat) (d : CommandDef) (e : Option String)
    (hl : lookup st.command_funcs args mode = (some d, e))
    (hp : ¬(st.poisoned_reason.isSome = true ∧ d.flags &&& CMD_POISON_IMMUNE = 0))
    (ho : client.client_is_owner = false ∧ d.flags &&& CMD_ALLOW_ANY_USER = 0) :
    dispatch_command st client args mode =
      { result := false
        globals := st
        client := { client with current_command := some args }
        events := [Event.errorResponse (some (owner_error_message d.name))]
        argsRefDelta := 1 } := by
  unfold dispatch_command
  rw [hl]
  dsimp only
  rw [if_neg hp, if_pos ho]

theorem dispatch_eq_of_exec (st : GlobalState) (client : Client) (args : List JVal)
    (mode : Nat) (d : CommandDef) (e : Option String)
    (hl : lookup st.command_funcs args mode = (some d, e))
    (hp : ¬(st.poisoned_reason.isSome = true ∧ d.flags &&& CMD_POISON_IMMUNE = 0))
    (ho : ¬(client.client_is_owner = false ∧ d.flags &&& CMD_ALLOW_ANY_USER = 0)) :
    dispatch_command st client args mode =
      dispatchDone st { client with current_command := some args, perf_sample := true }
        [Event.handlerInvoked d.name args] true := by
  unfold dispatch_command
  rw [hl]
  dsimp only
  rw [if_neg hp, if_neg ho]

/-- A state with `findDef` registered and the daemon poisoned. -/
def stPoisonFind : GlobalState :=
  { command_funcs := [("find", findDef)]
    capabilities := ["cmd-find"]
    poisoned_reason := some "disk full" }

/-- A state with only the CLI-only command registered. -/
def stCli : GlobalState :=
  { command_funcs := [("log-level", cliOnlyDef)], capabilities := ["cmd-log-level"] }

/-! ### Helper lemmas about the sort used for help output -/

theorem insertByName_perm (d : CommandDef) (l : List CommandDef) :
    (insertByName d l).Perm (d :: l) := by
  induction l with
  | nil => simp [insertByName]
  | cons e rest ih =>
    by_cases h : d.name ≤ e.name
    · simp [insertByName, h]
    · simp only [insertByName, if_neg h]
      exact (ih.cons e).trans (List.Perm.swap d e rest)

theorem insertByName_pairwise (d : CommandDef) (l : List CommandDef)
    (h : l.Pairwise (fun a b => a.name ≤ b.name)) :
    (insertByName d l).Pairwise (fun a b => a.name ≤ b.name) := by
  induction l with
  | nil => simp [insertByName]
  | cons e rest ih =>
    rcases List.pairwise_cons.mp h with ⟨he, hrest⟩
    by_cases hle : d.name ≤ e.name
    · simp only [insertByName, if_pos hle]
      refine List.pairwise_cons.mpr ⟨?_, h⟩
      intro x hx
      rcases List.mem_cons.mp hx with rfl | hx
      · exact hle
      · exact le_trans hle (he x hx)
    · simp only [insertByName, if_neg hle]
      refine List.pairwise_cons.mpr ⟨?_, ih hrest⟩
      intro x hx
      have hx2 : x ∈ d :: rest := (insertByName_perm d rest).mem_iff.mp hx
      rcases List.mem_cons.mp hx2 with rfl | hx2
      · exact le_of_lt (lt_of_not_le hle)
      · exact he x hx2

theorem sortDefs_perm (l : List CommandDef) : (sortDefs l).Perm l := by
  induction l with
  | nil => simp [sortDefs]
  | cons d rest ih =>
    exact (insertByName_perm d (sortDefs rest)).trans (ih.cons d)

theorem sortDefs_pairwise (l : List CommandDef) :
    (sortDefs l).Pairwise (fun a b => a.name ≤ b.name) := by
  induction l with
  | nil => simp [sortDefs]
  | cons d rest ih => exact insertByName_pairwise d (sortDefs rest) ih

/-! ### Helper lemmas about capability registration -/

theorem contains_capRegister (caps : List String) (x n : String) :
    ((if caps.contains x then caps else x :: caps).contains n = true) ↔
      (caps.contains n = true ∨ n = x) := by
  by_cases h : caps.contains x = true
  · rw [if_pos h]
    constructor
    · exact fun hn => Or.inl hn
    · rintro (hn | rfl)
      · exact hn
      · exact h
  · rw [if_neg h]
    simp [List.contains_cons]
    tauto

theorem supported_registerAll (defs : List CommandDef) (st : GlobalState) (n : String) :
    w_capability_supported (registerAll defs st) n = true ↔
      (w_capability_supported st n = true ∨
        ∃ d ∈ defs, truncate127 ("cmd-" ++ d.name) = n) := by
  induction defs generalizing st with
  | nil => simp [registerAll]
  | cons d rest ih =>
    have hstep : registerAll (d :: rest) st = registerAll rest (w_register_command st d) := rfl
    rw [hstep, ih]
    have hone : w_capability_supported (w_register_command st d) n = true ↔
        (w_capability_supported st n = true ∨ n = truncate127 ("cmd-" ++ d.name)) :=
      contains_capRegister st.capabilities (truncate127 ("cmd-" ++ d.name)) n
    rw [hone]
    constructor
    · rintro ((hn | rfl) | ⟨d2, hd2, hn2⟩)
      · exact Or.inl hn
      · exact Or.inr ⟨d, List.mem_cons_self d rest, rfl⟩
      · exact Or.inr ⟨d2, List.mem_cons_of_mem d hd2, hn2⟩
    · rintro (hn | ⟨d2, hd2, hn2⟩)
      · exact Or.inl (Or.inl hn)
      · rcases List.mem_cons.mp hd2 with rfl | hd2
        · exact Or.inl (Or.inr hn2.symm)
        · exact Or.inr ⟨d2, hd2, hn2⟩

theorem truncate127_eq_self (s : String) (h : s.length ≤ 127) : truncate127 s = s := by
  cases s with
  | mk data =>
    show String.mk (data.take 127) = String.mk data
    rw [List.take_of_length_le h]

theorem cmd_prefix_inj (a b : String) (h : ("cmd-" ++ a : String) = "cmd-" ++ b) : a = b := by
  have hd := congrArg String.data h
  rw [String.data_append, String.data_append] at hd
  have := List.append_cancel_left hd
  cases a with
  | mk da =>
    cases b with
    | mk db => exact congrArg String.mk this

/-! ### Claim theorems -/

/-- Claim C1: for every session, argument array and mode,
`dispatch_command` returns `true` if and only if a command handler was
actually invoked; every rejection before execution (malformed arguments,
unknown command under strict mode, mode violation, poisoned, permission
denied) returns `false` and invokes no handler. -/
theorem dispatch_result_iff_handler_invoked (st : GlobalState) (client : Client)
    (args : List JVal) (mode : Nat) :
    (dispatch_command st client args mode).result = true ↔
      ∃ n a, Event.handlerInvoked n a ∈ (dispatch_command st client args mode).events := by
  rcases hl : lookup st.command_funcs args mode with ⟨o, e⟩
  cases o with
  | none =>
    rw [dispatch_eq_of_lookup_none st client args mode e hl]
    simp [dispatchDone]
  | some d =>
    by_cases hp : st.poisoned_reason.isSome = true ∧ d.flags &&& CMD_POISON_IMMUNE = 0
    · rw [dispatch_eq_of_poisoned st client args mode d e hl hp.1 hp.2]
      simp [dispatchDone]
    · by_cases ho : client.client_is_owner = false ∧ d.flags &&& CMD_ALLOW_ANY_USER = 0
      · rw [dispatch_eq_of_perm_denied st client args mode d e hl hp ho]
        simp
      · rw [dispatch_eq_of_exec st client args mode d e hl hp ho]
        simp [dispatchDone]

/-- Claim C2 (code bug): the permission-denied exit path of
`dispatch_command` (reg.cpp line 169, `return false;`) skips the `done:`
epilogue: the in-flight command reference is neither released (the
`json_incref` at entry is left unbalanced, net delta 1) nor cleared
(`current_command` still holds the args), and the perf-sample handle is
not cleared, contradicting the claim that every exit path cleans up. -/
theorem dispatch_perm_denied_skips_cleanup :
    (dispatch_command stFind nonOwnerClient [JVal.str "find"] CMD_DAEMON).result = false ∧
    (dispatch_command stFind nonOwnerClient [JVal.str "find"] CMD_DAEMON).client.current_command
      = some [JVal.str "find"] ∧
    (dispatch_command stFind nonOwnerClient [JVal.str "find"] CMD_DAEMON).argsRefDelta = 1 ∧
    (dispatch_command stFind nonOwnerClient [JVal.str "find"] CMD_DAEMON).events =
      [Event.errorResponse (some (owner_error_message "find"))] :=
  ⟨rfl, rfl, rfl, rfl⟩

/-- Claim C3 (counterexample): dispatching an unknown command in tolerant
mode (`mode = 0`) does produce an error response on the session: the
`!def` branch of `dispatch_command` calls `send_error_response`
unconditionally, here with the NULL `errmsg`, so the claim's "produces no
error response" is false at this input. -/
theorem dispatch_tolerant_unknown_counterexample :
    (dispatch_command emptyState ownerClient [JVal.str "nope"] 0).result = false ∧
    (dispatch_command emptyState ownerClient [JVal.str "nope"] 0).events =
      [Event.errorResponse none] :=
  ⟨rfl, rfl⟩

/-- Claim C3 (amended): for every session and every unregistered command
name, `dispatch_command` with `mode = 0` returns `false` and invokes no
handler, but it does send one error response on the session — the
`send_error_response` call in the `!def` branch runs with the NULL
`errmsg` produced by the tolerant lookup. -/
theorem dispatch_tolerant_unknown_behavior (st : GlobalState) (client : Client)
    (name : String) (rest : List JVal)
    (hreg : regGet st.command_funcs name = none) :
    (dispatch_command st client (JVal.str name :: rest) 0).result = false ∧
    (dispatch_command st client (JVal.str name :: rest) 0).events =
      [Event.errorResponse none] ∧
    ∀ n a, Event.handlerInvoked n a ∉
      (dispatch_command st client (JVal.str name :: rest) 0).events := by
  have hl := lookup_unknown_tolerant st.command_funcs name rest hreg
  rw [dispatch_eq_of_lookup_none st client _ 0 none hl]
  refine ⟨rfl, rfl, ?_⟩
  intro n a hmem
  simp [dispatchDone] at hmem

/-- Witness for the amended C3 theorem at a concrete state and name. -/
theorem dispatch_tolerant_unknown_behavior_witness :
    (dispatch_command stFind ownerClient [JVal.str "nope"] 0).result = false ∧
    (dispatch_command stFind ownerClient [JVal.str "nope"] 0).events =
      [Event.errorResponse none] := by
  have h := dispatch_tolerant_unknown_behavior stFind ownerClient "nope" [] rfl
  exact ⟨h.1, h.2.1⟩

/-- Claim C4: for every session (owner or not) and every registered,
mode-matching command without `CMD_POISON_IMMUNE`, a set
`poisoned_reason` makes `dispatch_command` fail with an error response
carrying exactly the poison reason — the poison check sits before the
ownership check, so the poison reason (not the permission error) is what
gets reported. -/
theorem dispatch_poisoned_reports_reason (st : GlobalState) (client : Client)
    (name : String) (rest : List JVal) (d : CommandDef) (mode : Nat) (r : String)
    (hreg : regGet st.command_funcs name = some d)
    (hmode : mode = 0 ∨ d.flags &&& mode ≠ 0)
    (hpois : st.poisoned_reason = some r)
    (himm : d.flags &&& CMD_POISON_IMMUNE = 0) :
    (dispatch_command st client (JVal.str name :: rest) mode).result = false ∧
    (dispatch_command st client (JVal.str name :: rest) mode).events =
      [Event.errorResponse (some r)] := by
  have hl := lookup_found st.command_funcs name rest mode d hreg hmode
  have hp : st.poisoned_reason.isSome = true := by rw [hpois]; rfl
  rw [dispatch_eq_of_poisoned st client _ mode d none hl hp himm]
  exact ⟨rfl, by simp [dispatchDone, hpois]⟩

/-- Witness for C4: a poisoned daemon rejects `find` from a non-owner
session with the poison reason (not the permission error). -/
theorem dispatch_poisoned_reports_reason_witness :
    (dispatch_command stPoisonFind nonOwnerClient [JVal.str "find"] CMD_DAEMON).result = false ∧
    (dispatch_command stPoisonFind nonOwnerClient [JVal.str "find"] CMD_DAEMON).events =
      [Event.errorResponse (some "disk full")] :=
  dispatch_poisoned_reports_reason stPoisonFind nonOwnerClient "find" [] findDef CMD_DAEMON
    "disk full" rfl (Or.inr (by decide)) rfl (by decide)

/-- Claim C6: for every registered command and nonzero mode, if the
definition's flags lack the requested mode bit then `dispatch_command`
fails with the mode-violation error: it returns `false`, sends the
"not available in this mode" error response, and invokes no handler. -/
theorem dispatch_mode_violation_rejects (st : GlobalState) (client : Client)
    (name : String) (rest : List JVal) (d : CommandDef) (mode : Nat)
    (hreg : regGet st.command_funcs name = some d)
    (hmode : mode ≠ 0) (hflags : d.flags &&& mode = 0) :
    (dispatch_command st client (JVal.str name :: rest) mode).result = false ∧
    (dispatch_command st client (JVal.str name :: rest) mode).events =
      [Event.errorResponse (some ("command " ++ name ++ " not available in this mode"))] ∧
    ∀ n a, Event.handlerInvoked n a ∉
      (dispatch_command st client (JVal.str name :: rest) mode).events := by
  have hl := lookup_mode_violation st.command_funcs name rest mode d hreg hmode hflags
  rw [dispatch_eq_of_lookup_none st client _ mode _ hl]
  refine ⟨rfl, rfl, ?_⟩
  intro n a hmem
  simp [dispatchDone] at hmem

/-- Witness for C6: the CLI-only command dispatched in daemon mode is
rejected with the mode-violation error. -/
theorem dispatch_mode_violation_rejects_witness :
    (dispatch_command stCli ownerClient [JVal.str "log-level"] CMD_DAEMON).result = false ∧
    (dispatch_command stCli ownerClient [JVal.str "log-level"] CMD_DAEMON).events =
      [Event.errorResponse (some ("command " ++ "log-level" ++ " not available in this mode"))] := by
  have h := dispatch_mode_violation_rejects stCli ownerClient "log-level" [] cliOnlyDef
    CMD_DAEMON rfl (by decide) (by decide)
  exact ⟨h.1, h.2.1⟩

/-- Claim C10: `dispatch_command` never changes the command registry or
the capability set: on every path the globals it leaves behind have the
same `command_funcs` and `capabilities` as the input state. -/
theorem dispatch_preserves_registry_and_caps (st : GlobalState) (client : Client)
    (args : List JVal) (mode : Nat) :
    (dispatch_command st client args mode).globals.command_funcs = st.command_funcs ∧
    (dispatch_command st client args mode).globals.capabilities = st.capabilities := by
  rcases hl : lookup st.command_funcs args mode with ⟨o, e⟩
  cases o with
  | none =>
    rw [dispatch_eq_of_lookup_none st client args mode e hl]
    exact ⟨rfl, rfl⟩
  | some d =>
    by_cases hp : st.poisoned_reason.isSome = true ∧ d.flags &&& CMD_POISON_IMMUNE = 0
    · rw [dispatch_eq_of_poisoned st client args mode d e hl hp.1 hp.2]
      exact ⟨rfl, rfl⟩
    · by_cases ho : client.client_is_owner = false ∧ d.flags &&& CMD_ALLOW_ANY_USER = 0
      · rw [dispatch_eq_of_perm_denied st client args mode d e hl hp ho]
        exact ⟨rfl, rfl⟩
      · rw [dispatch_eq_of_exec st client args mode d e hl hp ho]
        exact ⟨rfl, rfl⟩

/-- The registry used in the C5 witness: one command whose validator
rejects argument arrays with fewer than two elements. -/
def cfVal : List (String × CommandDef) := [("val", valDef)]

/-- Claim C5 (counterexample): with an EMPTY registry — so no validator
exists anywhere in the system — `preprocess_command` on the empty
argument array still serializes an error envelope and exits nonzero; the
error was produced by `lookup` (malformed command), not by a validator,
so "only validator-produced errors apply" is false. -/
theorem preprocess_lookup_error_counterexample :
    preprocess_command [] [] =
      PreprocessOutcome.exitError
        ⟨"invalid command (expected an array with some elements!)", PACKAGE_VERSION, true⟩ :=
  rfl

/-- Claim C5 (amended): `preprocess_command` looks the command up with
`mode = 0`, so an unknown command returns normally as a no-op; it
serializes an error envelope (with the build version and
`cli_validated = true`) and terminates with a nonzero exit code if and
only if an error message was produced — either by `lookup` (malformed
command; unknown-command errors cannot arise at mode 0) or by the
resolved definition's validator. -/
theorem preprocess_exit_characterization (cf : List (String × CommandDef))
    (args : List JVal) :
    ((∃ env, preprocess_command cf args = PreprocessOutcome.exitError env) ↔
      ((lookup cf args 0).2 ≠ none ∨
        ∃ d v m, (lookup cf args 0).1 = some d ∧ d.cli_validate = some v ∧
          v args = some m)) ∧
    (∀ name rest, regGet cf name = none →
      preprocess_command cf (JVal.str name :: rest) = PreprocessOutcome.ret) ∧
    (∀ env, preprocess_command cf args = PreprocessOutcome.exitError env →
      env.version = PACKAGE_VERSION ∧ env.cli_validated = true) := by
  refine ⟨?_, ?_, ?_⟩
  · rcases hl : lookup cf args 0 with ⟨o, e⟩
    cases o with
    | none =>
      cases e with
      | none => simp [preprocess_command, hl]
      | some msg => simp [preprocess_command, hl]
    | some d =>
      cases e with
      | some msg => simp [preprocess_command, hl]
      | none =>
        cases hv : d.cli_validate with
        | none => simp [preprocess_command, hl, hv]
        | some v =>
          cases hva : v args with
          | none => simp [preprocess_command, hl, hv, hva]
          | some m => simp [preprocess_command, hl, hv, hva]
  · intro name rest hreg
    have hl2 := lookup_unknown_tolerant cf name rest hreg
    simp [preprocess_command, hl2]
  · intro env h
    rcases hl : lookup cf args 0 with ⟨o, e⟩
    cases o with
    | none =>
      cases e with
      | none => simp [preprocess_command, hl] at h
      | some msg =>
        simp [preprocess_command, hl] at h
        rw [← h]
        exact ⟨rfl, rfl⟩
    | some d =>
      cases e with
      | some msg =>
        simp [preprocess_command, hl] at h
        rw [← h]
        exact ⟨rfl, rfl⟩
      | none =>
        cases hv : d.cli_validate with
        | none => simp [preprocess_command, hl, hv] at h
        | some v =>
          cases hva : v args with
          | none => simp [preprocess_command, hl, hv, hva] at h
          | some m =>
            simp [preprocess_command, hl, hv, hva] at h
            rw [← h]
            exact ⟨rfl, rfl⟩

/-- Witness for the amended C5 theorem: an unknown command passes through
as a no-op; a registered command whose validator rejects its arguments
makes `preprocess_command` exit with an error envelope. -/
theorem preprocess_exit_characterization_witness :
    preprocess_command cfVal [JVal.str "nope"] = PreprocessOutcome.ret ∧
    (∃ env, preprocess_command cfVal [JVal.str "val"] = PreprocessOutcome.exitError env) := by
  constructor
  · exact (preprocess_exit_characterization cfVal [JVal.str "nope"]).2.1 "nope" [] rfl
  · exact (preprocess_exit_characterization cfVal [JVal.str "val"]).1.mpr
      (Or.inr ⟨valDef, (fun as => if as.length < 2 then some "missing argument" else none),
        "missing argument", rfl, rfl, rfl⟩)

/-- Claim C7 (counterexample): registering a 124-character command name
succeeds in the registry, but the derived capability string `cmd-<name>`
(128 characters) is truncated by `snprintf` into the 128-byte `capname`
buffer, so `supported("cmd-<name>")` is still false after registration —
refuting the claim for arbitrary names. -/
theorem capability_truncation_counterexample :
    (regGet (w_register_command emptyState
        { name := longName, flags := CMD_DAEMON }).command_funcs longName).isSome = true ∧
    w_capability_supported (w_register_command emptyState
        { name := longName, flags := CMD_DAEMON }) ("cmd-" ++ longName) = false :=
  ⟨rfl, by decide⟩

/-- Claim C7 (amended): for command names of at most 123 characters (so
that `cmd-<name>` fits the 128-byte capability buffer), the capability
`cmd-<name>` is supported after `w_register_command` of a definition
named `<name>` (in any state), and in a state built only from command
registrations, `supported("cmd-<name>")` holds exactly for the
registered names — in particular it is false before registration. -/
theorem capability_iff_registered :
    (∀ (st : GlobalState) (d : CommandDef), d.name.length ≤ 123 →
      w_capability_supported (w_register_command st d) ("cmd-" ++ d.name) = true) ∧
    (∀ (defs : List CommandDef) (name : String),
      (∀ d ∈ defs, d.name.length ≤ 123) →
      (w_capability_supported (registerAll defs emptyState) ("cmd-" ++ name) = true ↔
        ∃ d ∈ defs, d.name = name)) := by
  have hlen : ∀ (s : String), s.length ≤ 123 → ("cmd-" ++ s : String).length ≤ 127 := by
    intro s h
    rw [String.length_append]
    have : ("cmd-" : String).length = 4 := rfl
    omega
  constructor
  · intro st d h
    have hc : truncate127 ("cmd-" ++ d.name) = "cmd-" ++ d.name :=
      truncate127_eq_self _ (hlen d.name h)
    exact (contains_capRegister st.capabilities (truncate127 ("cmd-" ++ d.name))
      ("cmd-" ++ d.name)).mpr (Or.inr hc.symm)
  · intro defs name hnames
    rw [supported_registerAll]
    have hempty : w_capability_supported emptyState ("cmd-" ++ name) = false := rfl
    rw [hempty]
    simp only [Bool.false_eq_true, false_or]
    constructor
    · rintro ⟨d, hd, heq⟩
      have hc : truncate127 ("cmd-" ++ d.name) = "cmd-" ++ d.name :=
        truncate127_eq_self _ (hlen d.name (hnames d hd))
      rw [hc] at heq
      exact ⟨d, hd, cmd_prefix_inj d.name name heq⟩
    · rintro ⟨d, hd, rfl⟩
      exact ⟨d, hd, truncate127_eq_self _ (hlen d.name (hnames d hd))⟩

/-- Witness for the amended C7 theorem: after registering `find`,
`cmd-find` is supported, while the unregistered name has no `cmd-`
capability. -/
theorem capability_iff_registered_witness :
    w_capability_supported (w_register_command emptyState findDef) ("cmd-" ++ "find") = true ∧
    ¬ (w_capability_supported (registerAll [findDef] emptyState)
        ("cmd-" ++ "list-capabilities") = true) := by
  constructor
  · exact capability_iff_registered.1 emptyState findDef (by decide)
  · intro h
    have h2 := (capability_iff_registered.2 [findDef] "list-capabilities" (by decide)).mp h
    rcases h2 with ⟨d, hd, hn⟩
    rw [List.mem_singleton] at hd
    subst hd
    exact absurd hn (by decide)

/-- Claim C8: registering two definitions with distinct names makes both
independently resolvable by `lookup`; registering a second definition
under an already-registered name replaces the earlier one (last write
wins, `w_register_command` has no failure path), so lookup then yields
the later definition. -/
theorem register_lookup_last_write_wins (st : GlobalState) (d1 d2 : CommandDef) :
    (d1.name ≠ d2.name →
      lookup (w_register_command (w_register_command st d1) d2).command_funcs
        [JVal.str d1.name] 0 = (some d1, none) ∧
      lookup (w_register_command (w_register_command st d1) d2).command_funcs
        [JVal.str d2.name] 0 = (some d2, none)) ∧
    (d1.name = d2.name →
      lookup (w_register_command (w_register_command st d1) d2).command_funcs
        [JVal.str d2.name] 0 = (some d2, none)) := by
  have hcf : (w_register_command (w_register_command st d1) d2).command_funcs =
      regSet (regSet st.command_funcs d1.name d1) d2.name d2 := rfl
  constructor
  · intro hne
    constructor
    · refine lookup_found _ _ _ _ d1 ?_ (Or.inl rfl)
      rw [hcf, regGet_regSet_ne _ _ _ _ hne, regGet_regSet_self]
    · refine lookup_found _ _ _ _ d2 ?_ (Or.inl rfl)
      rw [hcf, regGet_regSet_self]
  · intro _
    refine lookup_found _ _ _ _ d2 ?_ (Or.inl rfl)
    rw [hcf, regGet_regSet_self]

/-- Witness for C8: `find` and `get-pid` are both resolvable after being
registered; re-registering `find` yields the later definition. -/
theorem register_lookup_last_write_wins_witness :
    lookup (w_register_command (w_register_command emptyState findDef) getPidDef).command_funcs
      [JVal.str "find"] 0 = (some findDef, none) ∧
    lookup (w_register_command (w_register_command emptyState findDef) getPidDef).command_funcs
      [JVal.str "get-pid"] 0 = (some getPidDef, none) ∧
    lookup (w_register_command (w_register_command emptyState findDef) findDef2).command_funcs
      [JVal.str "find"] 0 = (some findDef2, none) := by
  refine ⟨?_, ?_, ?_⟩
  · exact ((register_lookup_last_write_wins emptyState findDef getPidDef).1 (by decide)).1
  · exact ((register_lookup_last_write_wins emptyState findDef getPidDef).1 (by decide)).2
  · exact (register_lookup_last_write_wins emptyState findDef findDef2).2 rfl

/-- Claim C9: for every registry contents and registration order, the
help listing presents the command names in ascending lexicographic
order: the printed list is ordered by `≤`, is a permutation of the
registered names, and with (necessarily unique) registry names the order
is strictly ascending. -/
theorem print_command_list_sorted (defs : List CommandDef) :
    List.Pairwise (fun a b : String => a ≤ b) (print_command_list_for_help defs) ∧
    (print_command_list_for_help defs).Perm (defs.map (fun d => d.name)) ∧
    ((defs.map (fun d => d.name)).Nodup →
      List.Pairwise (fun a b : String => a < b) (print_command_list_for_help defs)) := by
  have hle : List.Pairwise (fun a b : String => a ≤ b) (print_command_list_for_help defs) :=
    (sortDefs_pairwise defs).map _ (fun a b hab => hab)
  have hperm : (print_command_list_for_help defs).Perm (defs.map (fun d => d.name)) :=
    (sortDefs_perm defs).map _
  refine ⟨hle, hperm, ?_⟩
  intro hnd
  have hnd2 : (print_command_list_for_help defs).Nodup := hperm.nodup_iff.mpr hnd
  exact (hle.and hnd2).imp (fun hab => lt_of_le_of_ne hab.1 hab.2)

/-- Witness for C9: registering `get-pid` then `find` still lists `find`
strictly before `get-pid`. -/
theorem print_command_list_sorted_witness :
    ([getPidDef, findDef].map (fun d => d.name)).Nodup ∧
    List.Pairwise (fun a b : String => a < b)
      (print_command_list_for_help [getPidDef, findDef]) :=
  ⟨by decide, (print_command_list_sorted [getPidDef, findDef]).2.2 (by decide)⟩

end Watchman
